import Mathlib

/-
Verification development for the `command-limits` crate (Unix/Linux configuration).

The crate provides a `CommandBuilder` that incrementally accepts command-line
arguments and environment entries while tracking their byte cost against
platform exec limits, plus an example `xargs` driver that batches a token
stream into subprocess invocations.

Shallow embedding conventions:
- OS strings are byte lists (`Str := List Nat`); on Unix `osstr_len` is the
  byte length.  `mem::size_of::<*const c_char>()` is 8 (64-bit target).
- The ambient process environment (`std::env::vars_os` / `var_os`) is passed
  explicitly as an association list `Ambient`.
- `usize` arithmetic is `Nat`; Rust `saturating_sub` is `Nat` subtraction,
  which is saturating by definition.
- `BTreeMap<OsString, Option<OsString>>` is a key-unique association list with
  `mapGet` / `mapInsert` / `mapRemove`; the count used by `env_count` checks is
  its length.
- Fallible `&mut self` methods whose error paths leave the receiver untouched
  are `Except`-valued state transformers; `argsM` additionally records the
  receiver state on both outcomes, to state atomicity.
- The `xargs` example's main loop is a fuel-indexed step function `runLoop`
  over an oracle list of subprocess outcomes; `none` means fuel or oracle
  exhaustion.  The `BufRead` reader of `read_like_xargs` is modelled as
  delivering the whole remaining stream in a single `fill_buf` chunk.
-/

/-- Byte strings standing for `OsStr` contents. -/
abbrev Str := List Nat

/-- Snapshot of the ambient process environment, as key/value pairs. -/
abbrev Ambient := List (Str × Str)

/-- `error.rs`: the three structural error kinds. -/
inductive Error where
  | InsufficientSpace
  | TooMany
  | TooLarge
deriving DecidableEq, Repr

/-- `unix.rs` `osstr_len`: byte length of an OS string. -/
def osstr_len (s : Str) : Nat := s.length

/-- `unix.rs` `arg_len`: `char *` pointer + bytes + NUL terminator. -/
def arg_len (a : Str) : Nat := 8 + osstr_len a + 1

/-- `unix.rs` `env_key_len`: `char *` pointer + key bytes + `=`. -/
def env_key_len (k : Str) : Nat := 8 + osstr_len k + 1

/-- `unix.rs` `env_val_len`: value bytes + NUL terminator. -/
def env_val_len (v : Str) : Nat := osstr_len v + 1

/-- `unix.rs` `env_pair_len`: cost of a full `key=value\0` entry. -/
def env_pair_len (k v : Str) : Nat := env_key_len k + env_val_len v

/-- `lib.rs` `CommandLimits`.  `NonZeroUsize` is modelled as `Nat`. -/
structure CommandLimits where
  arg_size : Nat
  individual_arg_size : Option Nat
  arg_count : Option Nat
  env_size : Option Nat
  individual_env_size : Option Nat
  env_count : Option Nat
deriving DecidableEq, Repr

/-- The environment override mapping: key-unique association list,
`none` values record an explicit unset. -/
abbrev EnvMap := List (Str × Option Str)

/-- `BTreeMap::get`. -/
def mapGet (m : EnvMap) (k : Str) : Option (Option Str) :=
  match m with
  | [] => none
  | (k1, v) :: rest => if k1 = k then some v else mapGet rest k

/-- `BTreeMap::insert`: replace the value at an existing key, else append. -/
def mapInsert (m : EnvMap) (k : Str) (v : Option Str) : EnvMap :=
  match m with
  | [] => [(k, v)]
  | (k1, v1) :: rest =>
    if k1 = k then (k1, v) :: rest else (k1, v1) :: mapInsert rest k v

/-- `BTreeMap::remove` (value discarded by the caller). -/
def mapRemove (m : EnvMap) (k : Str) : EnvMap :=
  m.filter (fun p => !(decide (p.1 = k)))

/-- `std::env::var_os` against the modelled ambient environment. -/
def lookupAmb (amb : Ambient) (k : Str) : Option Str :=
  match amb with
  | [] => none
  | (k1, v) :: rest => if k1 = k then some v else lookupAmb rest k

/-- `lib.rs` `CommandBuilder` state. -/
structure CommandBuilder where
  limits : CommandLimits
  argv : List Str
  env : EnvMap
  arg_size : Nat
  env_size : Nat
  clear_env : Bool
deriving DecidableEq, Repr

/-- `limit.map(|limit| limit.get() <= n).unwrap_or(false)`. -/
def count_reached (limit : Option Nat) (n : Nat) : Bool :=
  match limit with
  | some l => decide (l ≤ n)
  | none => false

/-- `CommandBuilder::check_env_size`: does the command have room for `size`
more bytes of environment data. -/
def check_env_size (b : CommandBuilder) (size : Nat) : Except Error Unit :=
  match b.limits.env_size with
  | some env_limit =>
    if env_limit < b.env_size + size then Except.error Error.InsufficientSpace
    else Except.ok ()
  | none =>
    if b.limits.arg_size < b.arg_size + b.env_size + size then
      Except.error Error.InsufficientSpace
    else Except.ok ()

/-- `CommandBuilder::check_env_pair`: validate a fresh `key=value` entry. -/
def check_env_pair (b : CommandBuilder) (k v : Str) : Except Error Nat :=
  let len := env_pair_len k v
  let ceiling :=
    match b.limits.individual_env_size with
    | some x => x
    | none =>
      match b.limits.env_size with
      | some x => x
      | none => b.limits.arg_size
  if ceiling < len then Except.error Error.TooLarge
  else if count_reached b.limits.env_count b.env.length then Except.error Error.TooMany
  else (check_env_size b len).map (fun _ => len)

/-- `CommandBuilder::check_arg`: validate one argument, returning the number
of bytes it would add to `arg_size`. -/
def check_arg (b : CommandBuilder) (a : Str) : Except Error Nat :=
  let len := arg_len a
  if (b.limits.individual_arg_size.getD b.limits.arg_size) < len then
    Except.error Error.TooLarge
  else if count_reached b.limits.arg_count b.argv.length then
    Except.error Error.TooMany
  else if b.limits.env_size.isSome then
    if b.limits.arg_size < b.arg_size + len then Except.error Error.InsufficientSpace
    else Except.ok len
  else if b.limits.arg_size < b.arg_size + b.env_size + len then
    Except.error Error.InsufficientSpace
  else Except.ok len

/-- `CommandBuilder::arg`: append one argument if it fits. -/
def arg (b : CommandBuilder) (a : Str) : Except Error CommandBuilder :=
  (check_arg b a).map (fun len =>
    { b with arg_size := b.arg_size + len, argv := b.argv ++ [a] })

/-- `args.iter().map(|arg| self.check_arg(arg)).sum::<Result<usize>>()`:
every element is checked against the receiver's current (unchanged) state,
short-circuiting at the first error. -/
def sumChecks (b : CommandBuilder) (l : List Str) : Except Error Nat :=
  match l with
  | [] => Except.ok 0
  | a :: rest =>
    (check_arg b a).bind (fun n => (sumChecks b rest).map (fun m => n + m))

/-- `CommandBuilder::args` as a state transformer on the `&mut self`
receiver: the `?` on the summed checks returns before `arg_size` or `argv`
is touched, so the error path carries the receiver unchanged. -/
def argsM (b : CommandBuilder) (l : List Str) : Except Error Unit × CommandBuilder :=
  match sumChecks b l with
  | Except.error e => (Except.error e, b)
  | Except.ok total =>
    (Except.ok (), { b with arg_size := b.arg_size + total, argv := b.argv ++ l })

/-- `CommandBuilder::args`, result-valued. -/
def args (b : CommandBuilder) (l : List Str) : Except Error CommandBuilder :=
  match argsM b l with
  | (Except.ok _, b1) => Except.ok b1
  | (Except.error e, _) => Except.error e

/-- Modelled from the spec's words (§4.2 `add_arguments`): the sequential
simulation of repeated `add_argument`, each call applied to the state left
by the previous one.  Used to compare `args` against its specification. -/
def argsSeq (b : CommandBuilder) (l : List Str) : Except Error CommandBuilder :=
  match l with
  | [] => Except.ok b
  | a :: rest => (arg b a).bind (fun b1 => argsSeq b1 rest)

/-- `CommandBuilder::env`: set an environment variable if it fits.  All
branches end in `self.env.insert(key, Some(value))`.  Note the source
subtracts the old value's size but never adds the new one. -/
def env (b : CommandBuilder) (amb : Ambient) (k v : Str) : Except Error CommandBuilder :=
  let pre : Except Error CommandBuilder :=
    match mapGet b.env k with
    | some (some old_value) =>
      let old_size := env_val_len old_value
      let new_size := env_val_len v
      ((if old_size < new_size then check_env_size b (new_size - old_size)
        else Except.ok ())).map
        (fun _ => { b with env_size := b.env_size - old_size })
    | some none => Except.ok b
    | none =>
      match lookupAmb amb k with
      | some old_value =>
        let old_size := env_val_len old_value
        let new_size := env_val_len v
        ((if old_size < new_size then check_env_size b (new_size - old_size)
          else Except.ok ())).map
          (fun _ => { b with env_size := b.env_size - old_size })
      | none =>
        (check_env_pair b k v).map (fun len =>
          { b with env_size := b.env_size + len })
  pre.map (fun b1 => { b1 with env := mapInsert b1.env k (some v) })

/-- Common tail of `CommandBuilder::env_remove`: drop the key when the
environment was cleared, else record an explicit unset. -/
def removeCommit (b : CommandBuilder) (k : Str) : CommandBuilder :=
  if b.clear_env then { b with env := mapRemove b.env k }
  else { b with env := mapInsert b.env k none }

/-- `CommandBuilder::env_remove`: always succeeds; a key already explicitly
unset is returned unchanged (early `return self`). -/
def env_remove (b : CommandBuilder) (amb : Ambient) (k : Str) : CommandBuilder :=
  match mapGet b.env k with
  | some (some value) =>
    removeCommit { b with env_size := b.env_size - env_pair_len k value } k
  | some none => b
  | none =>
    let b1 :=
      if b.clear_env then b
      else
        match lookupAmb amb k with
        | some value => { b with env_size := b.env_size - env_pair_len k value }
        | none => b
    removeCommit b1 k

/-- `CommandBuilder::env_clear`. -/
def env_clear (b : CommandBuilder) : CommandBuilder :=
  { b with clear_env := true, env := [], env_size := 0 }

/-- `CommandBuilder::inherit_env`: size the ambient environment without
copying it.  On failure the source restores `env_size`, leaving the receiver
unchanged. -/
def inherit_env (b : CommandBuilder) (amb : Ambient) : Except Error CommandBuilder :=
  let b1 := { b with env_size := (amb.map (fun p => env_pair_len p.1 p.2)).sum }
  match check_env_size b1 0 with
  | Except.error e => Except.error e
  | Except.ok _ => Except.ok { b1 with clear_env := false, env := [] }

/-- `BTreeMap` `collect` over the ambient environment (later pairs win). -/
def ambCollect (amb : Ambient) : EnvMap :=
  amb.foldl (fun m p => mapInsert m p.1 (some p.2)) []

/-- `CommandBuilder::capture_env`: copy the ambient environment in. -/
def capture_env (b : CommandBuilder) (amb : Ambient) : Except Error CommandBuilder :=
  let b1 := { b with env_size := (amb.map (fun p => env_pair_len p.1 p.2)).sum }
  match check_env_size b1 0 with
  | Except.error e => Except.error e
  | Except.ok _ => Except.ok { b1 with clear_env := true, env := ambCollect amb }

/-- `CommandBuilder::with_limits`: fresh builder, inherit the environment,
then add the command itself as the first argument. -/
def with_limits (command : Str) (limits : CommandLimits) (amb : Ambient) :
    Except Error CommandBuilder :=
  let cmd : CommandBuilder :=
    { limits := limits, argv := [], env := [], arg_size := 0, env_size := 0,
      clear_env := false }
  (inherit_env cmd amb).bind (fun c1 => arg c1 command)

/-- `CommandBuilder::capture_with_limits`. -/
def capture_with_limits (command : Str) (limits : CommandLimits) (amb : Ambient) :
    Except Error CommandBuilder :=
  let cmd : CommandBuilder :=
    { limits := limits, argv := [], env := [], arg_size := 0, env_size := 0,
      clear_env := false }
  (capture_env cmd amb).bind (fun c1 => arg c1 command)

/-- `unix.rs` `_sc_arg_max`: `sysconf(_SC_ARG_MAX)` yields `Some` only for a
positive raw result. -/
def sc_arg_max (r : Int) : Option Nat :=
  if 0 < r then some r.toNat else none

/-- `NonZeroUsize::new`. -/
def nonZeroNew (n : Nat) : Option Nat :=
  if n = 0 then none else some n

/-- `unix.rs` (Linux): `Default for CommandLimits`, parameterized by the raw
`sysconf` result.  `ARG_MAX = 128 * 1024`, `ARG_POSIX_MIN = 4096`,
`ARG_RESERVED = 4096`, `ARG_MIN = 2048`, `ARG_SINGLE_MAX = 128 * 1024`. -/
def defaultCommandLimits (r : Int) : CommandLimits :=
  let arg_max :=
    (((Nat.min 131072 ((sc_arg_max r).getD 0)).max 4096) - 4096).max 2048
  { arg_size := arg_max
    individual_arg_size := nonZeroNew 131072
    arg_count := none
    env_size := none
    individual_env_size := nonZeroNew 131072
    env_count := none }

/-- Outcome of one executed batch, as seen through `ExitStatus` on Unix:
either a natural exit code or termination by a signal. -/
inductive Outcome where
  | code (c : Nat)
  | signal (n : Nat)
deriving DecidableEq, Repr

/-- Mutable state of the `run()` loop in `examples/xargs.rs`: the one-token
lookahead, the `pending` and `run_now` flags, the provisional result code
`rc`, and the current batch's builder `cmd`. -/
structure LoopState where
  item : Option (List Nat)
  pending : Bool
  run_now : Bool
  rc : Nat
  cmd : CommandBuilder
deriving DecidableEq, Repr

/-- Result of the batch-execution section of one loop iteration. -/
inductive BatchRes where
  | ret (r : Except Error Nat) (outs : List Outcome)
  | stuck
  | cont (s : LoopState) (outs : List Outcome)
deriving Repr

/-- `examples/xargs.rs` lines 228-263: if a batch is pending and due, run it
and interpret the subprocess outcome; `stuck` means the outcome oracle is
exhausted.  A natural exit overwrites `rc` with its code; 255 aborts with
that code; a signal returns `Ok(0)`; otherwise a fresh batch starts from
`base`. -/
def batchStep (outs : List Outcome) (s : LoopState) (base : CommandBuilder) : BatchRes :=
  if s.pending && s.run_now then
    match outs with
    | [] => BatchRes.stuck
    | Outcome.signal _ :: rest => BatchRes.ret (Except.ok 0) rest
    | Outcome.code c :: rest =>
      if c = 0 then
        BatchRes.cont { s with pending := false, run_now := false, cmd := base } rest
      else if c = 255 then BatchRes.ret (Except.ok 255) rest
      else
        BatchRes.cont
          { item := s.item, pending := false, run_now := false, rc := c, cmd := base }
          rest
  else BatchRes.cont s outs

/-- Result of one full iteration of the `run()` loop. -/
inductive IterRes where
  | ret (r : Except Error Nat) (outs : List Outcome)
  | stuck
  | cont (toks : List (List Nat)) (outs : List Outcome) (s : LoopState)
deriving Repr

/-- Promote the batch-execution result into the loop-iteration result,
carrying along the remaining token stream. -/
def liftBatch (toks : List (List Nat)) (br : BatchRes) : IterRes :=
  match br with
  | BatchRes.ret r o => IterRes.ret r o
  | BatchRes.stuck => IterRes.stuck
  | BatchRes.cont s1 o => IterRes.cont toks o s1

/-- `examples/xargs.rs` lines 210-263 with `item = Some it` taken: empty
tokens are skipped; `TooLarge` aborts the run; other `arg` failures put the
token back and force the pending batch to run; success marks the batch
pending.  Then the batch-execution section runs. -/
def iterItem (toks : List (List Nat)) (outs : List Outcome) (s : LoopState)
    (it : List Nat) (base : CommandBuilder) : IterRes :=
  if it = ([] : List Nat) then IterRes.cont toks outs { s with item := none }
  else
    match arg s.cmd it with
    | Except.error Error.TooLarge => IterRes.ret (Except.error Error.TooLarge) outs
    | Except.error _ =>
      liftBatch toks (batchStep outs { s with item := some it, run_now := true } base)
    | Except.ok cmd1 =>
      liftBatch toks
        (batchStep outs { s with item := none, pending := true, cmd := cmd1 } base)

/-- One iteration of the `run()` loop (lines 202-263): refill the lookahead
from the token stream, break to `Ok(rc)` when the stream is exhausted with
nothing pending, else process the token in hand or force a final batch. -/
def iter1 (toks : List (List Nat)) (outs : List Outcome) (s : LoopState)
    (base : CommandBuilder) : IterRes :=
  match s.item with
  | some it => iterItem toks outs s it base
  | none =>
    match toks with
    | [] =>
      if s.pending then liftBatch [] (batchStep outs { s with run_now := true } base)
      else IterRes.ret (Except.ok s.rc) outs
    | t :: ts => iterItem ts outs { s with item := some t } t base

/-- The whole `run()` loop, fuel-indexed.  Returns the driver result paired
with the unconsumed outcome oracle; `none` means fuel or oracle exhaustion. -/
def runLoop : Nat → List (List Nat) → List Outcome → LoopState → CommandBuilder →
    Option (Except Error Nat × List Outcome)
  | 0, _, _, _, _ => none
  | Nat.succ fuel, toks, outs, s, base =>
    match iter1 toks outs s base with
    | IterRes.ret r o => some (r, o)
    | IterRes.stuck => none
    | IterRes.cont t1 o1 s1 => runLoop fuel t1 o1 s1 base

/-- How one batch outcome updates the recorded result code in the source:
`rc = res.code()` on any natural non-zero exit (overwriting), unchanged on a
zero exit. -/
def recCode (rc : Nat) (o : Outcome) : Nat :=
  match o with
  | Outcome.code c => if c = 0 then rc else c
  | Outcome.signal _ => rc

/-- Tokenizer failure kinds: `InvalidData` ("malformed input") errors built
by `read_like_xargs` itself, versus transport errors propagated from the
underlying reader (never produced in the pure single-chunk model). -/
inductive RlxErr where
  | invalidData (msg : String)
  | transport
deriving DecidableEq, Repr

/-- Result of scanning the remaining stream for one token. -/
inductive ScanRes where
  | completed (item : List Nat) (rest : List Nat)
  | errored
  | ended (item : List Nat) (esc sgl dbl : Bool)
deriving DecidableEq, Repr

/-- `u8::is_ascii_whitespace`: space, tab, newline, form feed, carriage
return. -/
def isWS (b : Nat) : Bool :=
  b = 32 || b = 9 || b = 10 || b = 12 || b = 13

/-- The per-byte loop of `read_like_xargs` (lines 54-111) over the whole
remaining stream: backslash escapes the next byte, quote spans suppress
splitting, a newline inside a quote is an immediate malformed-input error,
whitespace completes a non-empty token. `ended` is reached when the stream
runs out mid-token. -/
def rlxScan : List Nat → List Nat → Bool → Bool → Bool → ScanRes
  | [], item, esc, sgl, dbl => ScanRes.ended item esc sgl dbl
  | b :: rest, item, esc, sgl, dbl =>
    if esc then rlxScan rest (item ++ [b]) false sgl dbl
    else if sgl then
      if b = 39 then rlxScan rest item esc false dbl
      else if b = 10 then ScanRes.errored
      else rlxScan rest (item ++ [b]) esc sgl dbl
    else if dbl then
      if b = 34 then rlxScan rest item esc sgl false
      else if b = 10 then ScanRes.errored
      else rlxScan rest (item ++ [b]) esc sgl dbl
    else if b = 92 then rlxScan rest item true sgl dbl
    else if b = 39 then rlxScan rest item esc true dbl
    else if b = 34 then rlxScan rest item esc sgl true
    else if isWS b then
      if item = ([] : List Nat) then rlxScan rest item esc sgl dbl
      else ScanRes.completed item rest
    else rlxScan rest (item ++ [b]) esc sgl dbl

/-- `read_like_xargs` (lines 22-117) with the reader modelled as one chunk:
the EOF checks distinguish an open quote, a trailing escape, no pending
token (end of iteration), and a final token.  Returns the optional result
and the remaining stream. -/
def read_like_xargs (input : List Nat) :
    Option (Except RlxErr (List Nat)) × List Nat :=
  match rlxScan input [] false false false with
  | ScanRes.completed item rest => (some (Except.ok item), rest)
  | ScanRes.errored => (some (Except.error (RlxErr.invalidData "unterminated quote")), input)
  | ScanRes.ended item esc sgl dbl =>
    if sgl || dbl then
      (some (Except.error (RlxErr.invalidData "unterminated quote")), [])
    else if esc then
      (some (Except.error (RlxErr.invalidData "backslash at EOF")), [])
    else if item = ([] : List Nat) then (none, [])
    else (some (Except.ok item), [])

/-- Characterization of inputs whose scan reaches end-of-stream with a quote
span still open, tracked with the same per-byte transitions as `rlxScan`;
`ne` abstracts whether the accumulated token is non-empty. -/
def scanEnds : List Nat → Bool → Bool → Bool → Bool → Bool
  | [], _, sgl, dbl, _ => sgl || dbl
  | b :: rest, esc, sgl, dbl, ne =>
    if esc then scanEnds rest false sgl dbl true
    else if sgl then
      if b = 39 then scanEnds rest esc false dbl ne
      else if b = 10 then false
      else scanEnds rest esc sgl dbl true
    else if dbl then
      if b = 34 then scanEnds rest esc sgl false ne
      else if b = 10 then false
      else scanEnds rest esc sgl dbl true
    else if b = 92 then scanEnds rest true sgl dbl ne
    else if b = 39 then scanEnds rest esc true dbl ne
    else if b = 34 then scanEnds rest esc sgl true ne
    else if isWS b then
      if ne then false else scanEnds rest esc sgl dbl ne
    else scanEnds rest esc sgl dbl true

/-- Limits used by the concrete instances: a 40-byte total argument budget,
no other limits. -/
def lims40 : CommandLimits :=
  { arg_size := 40, individual_arg_size := none, arg_count := none,
    env_size := none, individual_env_size := none, env_count := none }

/-- The builder `with_limits([99], lims40, [])` produces: the one-byte
command costs 8 + 1 + 1 = 10. -/
def cb40 : CommandBuilder :=
  { limits := lims40, argv := [[99]], env := [], arg_size := 10, env_size := 0,
    clear_env := false }

/-- The builder state after `args` commits three arguments of cost 12 each
on top of `cb40`: `arg_size_used` is 46, over the 40-byte budget. -/
def cb46 : CommandBuilder :=
  { limits := lims40, argv := [[99], [97, 98, 99], [97, 98, 99], [97, 98, 99]],
    env := [], arg_size := 46, env_size := 0, clear_env := false }

/-- A 20-byte budget: the base command (cost 10) plus exactly one one-byte
token (cost 10) fill a batch. -/
def lims20 : CommandLimits :=
  { arg_size := 20, individual_arg_size := none, arg_count := none,
    env_size := none, individual_env_size := none, env_count := none }

/-- The builder `with_limits([99], lims20, [])` produces. -/
def base20 : CommandBuilder :=
  { limits := lims20, argv := [[99]], env := [], arg_size := 10, env_size := 0,
    clear_env := false }

/-- Initial `run()` loop state over `base20`. -/
def init20 : LoopState :=
  { item := none, pending := false, run_now := false, rc := 0, cmd := base20 }

/-- Limits with a 100-byte shared budget, used by the `env` instances. -/
def lims100 : CommandLimits :=
  { arg_size := 100, individual_arg_size := none, arg_count := none,
    env_size := none, individual_env_size := none, env_count := none }

/-- An ambient environment holding the single pair `k=x` (cost 12). -/
def amb4 : Ambient := [([107], [120])]

/-- The builder `with_limits([99], lims100, amb4)` produces: inherited
environment cost 12, command cost 10. -/
def cb4 : CommandBuilder :=
  { limits := lims100, argv := [[99]], env := [], arg_size := 10, env_size := 12,
    clear_env := false }

/-- `cb4` after `env([107], [121])`: the source drops the old value's cost
(2) without charging the new value, and records the override. -/
def cb4r : CommandBuilder :=
  { limits := lims100, argv := [[99]], env := [([107], some [121])],
    arg_size := 10, env_size := 10, clear_env := false }

/-- A builder with draconian limits whose override map already explicitly
unsets key `[107]`: every budget, ceiling and count limit is already at or
over its bound. -/
def cb5 : CommandBuilder :=
  { limits :=
      { arg_size := 1, individual_arg_size := some 1, arg_count := some 1,
        env_size := some 1, individual_env_size := some 1, env_count := some 1 },
    argv := [[99]], env := [([107], none)], arg_size := 10, env_size := 5,
    clear_env := false }

/-- `mapInsert` stores the given value at the given key. -/
theorem mapGet_mapInsert (m : EnvMap) (k : Str) (v : Option Str) :
    mapGet (mapInsert m k v) k = some v := by
  induction m with
  | nil => simp [mapInsert, mapGet]
  | cons p rest ih =>
    obtain ⟨k1, v1⟩ := p
    by_cases h : k1 = k
    · simp [mapInsert, mapGet, h]
    · simp [mapInsert, mapGet, h, ih]

/-- The common tail of `env_remove` never touches `env_size`. -/
theorem removeCommit_env_size (b : CommandBuilder) (k : Str) :
    (removeCommit b k).env_size = b.env_size := by
  unfold removeCommit
  split <;> rfl

/-- C3: `args` is atomic — whenever the call reports an error, the receiver
state it leaves behind is exactly the state it started from; only a fully
validated list is ever committed. -/
theorem args_atomic (b : CommandBuilder) (l : List Str) (e : Error)
    (h : (argsM b l).1 = Except.error e) : (argsM b l).2 = b := by
  cases hs : sumChecks b l with
  | error e2 => simp [argsM, hs]
  | ok total => simp [argsM, hs] at h

/-- Witness for `args_atomic`: on `cb40` a single 30-byte argument (cost 39)
overflows the 40-byte budget, and the failed call leaves the builder as it
was. -/
theorem args_atomic_witness :
    (argsM cb40 [List.replicate 30 97]).1 = Except.error Error.InsufficientSpace ∧
    (argsM cb40 [List.replicate 30 97]).2 = cb40 :=
  ⟨rfl, args_atomic cb40 [List.replicate 30 97] Error.InsufficientSpace rfl⟩

/-- C5: setting a key that currently carries an explicit-unset override
always succeeds, whatever the limits, and only replaces the override with
the new value — `env_size` and every other field are unchanged. -/
theorem env_on_explicit_unset (b : CommandBuilder) (amb : Ambient) (k v : Str)
    (h : mapGet b.env k = some none) :
    env b amb k v = Except.ok { b with env := mapInsert b.env k (some v) } := by
  unfold env
  rw [h]
  rfl

/-- Witness for `env_on_explicit_unset`: `cb5` has every limit at or past
its bound, yet setting the explicitly-unset key `[107]` succeeds. -/
theorem env_on_explicit_unset_witness :
    mapGet cb5.env [107] = some none ∧
    env cb5 [] [107] [121]
      = Except.ok { cb5 with env := mapInsert cb5.env [107] (some [121]) } :=
  ⟨rfl, env_on_explicit_unset cb5 [] [107] [121] rfl⟩

/-- C9 (amended): removing a key with no override, absent from the ambient
environment, in inherit mode leaves `env_size`, `clear_env`, `argv` and
everything else unchanged, but inserts an explicit-unset override for the
key into the mapping — it is not a complete no-op. -/
theorem env_remove_absent (b : CommandBuilder) (amb : Ambient) (k : Str)
    (hclr : b.clear_env = false)
    (hov : mapGet b.env k = none)
    (hamb : lookupAmb amb k = none) :
    env_remove b amb k = { b with env := mapInsert b.env k none } := by
  unfold env_remove removeCommit
  rw [hov, hamb]
  simp [hclr]

/-- Witness for `env_remove_absent` at `cb40` with an empty ambient
environment. -/
theorem env_remove_absent_witness :
    cb40.clear_env = false ∧
    env_remove cb40 [] [107] = { cb40 with env := mapInsert cb40.env [107] none } :=
  ⟨rfl, env_remove_absent cb40 [] [107] rfl rfl rfl⟩

/-- C9 counterexample: on the reachable builder `cb40` (empty ambient
environment), `env_remove` of the never-set key `[107]` changes the
override mapping, so the operation is not the claimed no-op. -/
theorem env_remove_absent_not_noop :
    with_limits [99] lims40 [] = Except.ok cb40 ∧
    ¬ ((env_remove cb40 [] [107]).env = cb40.env) :=
  ⟨rfl, by decide⟩

/-- C1: the source's `args` checks every element against the receiver's
initial state, so it diverges from the sequential simulation of repeated
`arg`: on the reachable builder `cb40` (10 of 40 budget bytes used) the
list of three cost-12 arguments is accepted wholesale by `args` (reaching
`arg_size_used` 46), while the sequential `arg` calls reject the third
element with `InsufficientSpace`. -/
theorem args_not_sequential :
    with_limits [99] lims40 [] = Except.ok cb40 ∧
    args cb40 [[97, 98, 99], [97, 98, 99], [97, 98, 99]] = Except.ok cb46 ∧
    argsSeq cb40 [[97, 98, 99], [97, 98, 99], [97, 98, 99]]
      = Except.error Error.InsufficientSpace :=
  ⟨rfl, rfl, rfl⟩

/-- C2: the budget invariant fails on the code — starting from the
successfully constructed `cb40` the single successful `args` call above
leaves `arg_size_used + env_size_used = 46`, strictly above the effective
shared budget `arg_size = 40` (no separate `env_size` is configured). -/
theorem args_exceeds_budget :
    with_limits [99] lims40 [] = Except.ok cb40 ∧
    args cb40 [[97, 98, 99], [97, 98, 99], [97, 98, 99]] = Except.ok cb46 ∧
    cb46.limits.env_size = none ∧
    cb46.limits.arg_size < cb46.arg_size + cb46.env_size :=
  ⟨rfl, rfl, rfl, by decide⟩

/-- C8: the default limit profile never fails to construct (its `arg_size`
is strictly positive, so the `NonZeroUsize` unwrap succeeds), and for every
raw value the platform query can return — including failure, which yields
the fallback 0 — `arg_size` is the query clamped into [4096, 131072] minus
the 4096-byte reserve, floored at 2048. -/
theorem default_limits_clamped (r : Int) :
    0 < (defaultCommandLimits r).arg_size ∧
    (defaultCommandLimits r).arg_size
      = Nat.max 2048 (Nat.max (Nat.min ((sc_arg_max r).getD 0) 131072) 4096 - 4096) := by
  constructor
  · show 0 < (((Nat.min 131072 ((sc_arg_max r).getD 0)).max 4096) - 4096).max 2048
    exact Nat.lt_of_lt_of_le (by norm_num) (Nat.le_max_right _ _)
  · show (((Nat.min 131072 ((sc_arg_max r).getD 0)).max 4096) - 4096).max 2048 = _
    simp only [Nat.max_def, Nat.min_def]
    split_ifs <;> omega

/-- C4 (amended): a successful `env(key, value)` on an originally-inherited
key immediately followed by `env_remove(key)` does not restore
`env_size_used`; it leaves it at its original value minus the old inherited
value's cost minus the full new `key=value` pair cost (saturating), because
the source drops the old value's size without ever charging the new one,
and the removal then subtracts the whole new pair. -/
theorem env_then_remove_env_size (b b1 : CommandBuilder) (amb : Ambient) (k v av : Str)
    (hclr : b.clear_env = false)
    (hov : mapGet b.env k = none)
    (hamb : lookupAmb amb k = some av)
    (henv : env b amb k v = Except.ok b1) :
    (env_remove b1 amb k).env_size
      = b.env_size - env_val_len av - env_pair_len k v := by
  by_cases hlt : env_val_len av < env_val_len v
  · cases hchk : check_env_size b (env_val_len v - env_val_len av) with
    | error e => simp [env, Except.map, hov, hamb, hlt, hchk] at henv
    | ok u =>
      simp [env, Except.map, hov, hamb, hlt, hchk] at henv
      subst henv
      simp [env_remove, mapGet_mapInsert, removeCommit_env_size]
  · simp [env, Except.map, hov, hamb, hlt] at henv
    subst henv
    simp [env_remove, mapGet_mapInsert, removeCommit_env_size]

/-- Witness for `env_then_remove_env_size` on the reachable builder `cb4`
(ambient pair `[107] = [120]`, cost 12 of which the value part costs 2):
after set-then-remove, `env_size_used` is 12 - 2 - 12 = 0. -/
theorem env_then_remove_env_size_witness :
    env cb4 amb4 [107] [121] = Except.ok cb4r ∧
    (env_remove cb4r amb4 [107]).env_size
      = cb4.env_size - env_val_len [120] - env_pair_len [107] [121] :=
  ⟨rfl, env_then_remove_env_size cb4 cb4r amb4 [107] [121] [120] rfl rfl rfl rfl⟩

/-- C4 counterexample: on the reachable builder `cb4`, `env` then
`env_remove` on the inherited key `[107]` drops `env_size_used` from 12 to
0, so the original value is not restored. -/
theorem env_then_remove_not_restored :
    with_limits [99] lims100 amb4 = Except.ok cb4 ∧
    env cb4 amb4 [107] [121] = Except.ok cb4r ∧
    ¬ ((env_remove cb4r amb4 [107]).env_size = cb4.env_size) :=
  ⟨rfl, rfl, by decide⟩

/-- Appending a byte leaves a list non-empty. -/
theorem append_singleton_isEmpty (l : List Nat) (b : Nat) :
    (l ++ [b]).isEmpty = false := by
  cases l <;> rfl

/-- If the scan of the remaining stream runs to end-of-stream with a quote
span still open (as characterized by `scanEnds`), the per-byte loop reaches
its end-of-buffer state with `single || double` set. -/
theorem rlxScan_open (input : List Nat) :
    ∀ (item : List Nat) (esc sgl dbl : Bool),
      scanEnds input esc sgl dbl (!item.isEmpty) = true →
      ∃ i2 e2 s2 d2, rlxScan input item esc sgl dbl = ScanRes.ended i2 e2 s2 d2 ∧
        (s2 || d2) = true := by
  induction input with
  | nil =>
    intro item esc sgl dbl h
    exact ⟨item, esc, sgl, dbl, rfl, by simpa [scanEnds] using h⟩
  | cons b rest ih =>
    intro item esc sgl dbl h
    cases esc with
    | true =>
      have hstep : scanEnds (b :: rest) true sgl dbl (!item.isEmpty)
          = scanEnds rest false sgl dbl true := by simp [scanEnds]
      rw [hstep] at h
      have gstep : rlxScan (b :: rest) item true sgl dbl
          = rlxScan rest (item ++ [b]) false sgl dbl := by simp [rlxScan]
      rw [gstep]
      refine ih (item ++ [b]) false sgl dbl ?_
      simpa [append_singleton_isEmpty] using h
    | false =>
      cases sgl with
      | true =>
        by_cases h39 : b = 39
        · subst h39
          have hstep : scanEnds (39 :: rest) false true dbl (!item.isEmpty)
              = scanEnds rest false false dbl (!item.isEmpty) := by simp [scanEnds]
          rw [hstep] at h
          have gstep : rlxScan (39 :: rest) item false true dbl
              = rlxScan rest item false false dbl := by simp [rlxScan]
          rw [gstep]
          exact ih item false false dbl h
        · by_cases h10 : b = 10
          · subst h10
            have hstep : scanEnds (10 :: rest) false true dbl (!item.isEmpty)
                = false := by simp [scanEnds, h39]
            rw [hstep] at h
            exact absurd h (by simp)
          · have hstep : scanEnds (b :: rest) false true dbl (!item.isEmpty)
                = scanEnds rest false true dbl true := by simp [scanEnds, h39, h10]
            rw [hstep] at h
            have gstep : rlxScan (b :: rest) item false true dbl
                = rlxScan rest (item ++ [b]) false true dbl := by
              simp [rlxScan, h39, h10]
            rw [gstep]
            refine ih (item ++ [b]) false true dbl ?_
            simpa [append_singleton_isEmpty] using h
      | false =>
        cases dbl with
        | true =>
          by_cases h34 : b = 34
          · subst h34
            have hstep : scanEnds (34 :: rest) false false true (!item.isEmpty)
                = scanEnds rest false false false (!item.isEmpty) := by
              simp [scanEnds]
            rw [hstep] at h
            have gstep : rlxScan (34 :: rest) item false false true
                = rlxScan rest item false false false := by simp [rlxScan]
            rw [gstep]
            exact ih item false false false h
          · by_cases h10 : b = 10
            · subst h10
              have hstep : scanEnds (10 :: rest) false false true (!item.isEmpty)
                  = false := by simp [scanEnds, h34]
              rw [hstep] at h
              exact absurd h (by simp)
            · have hstep : scanEnds (b :: rest) false false true (!item.isEmpty)
                  = scanEnds rest false false true true := by
                simp [scanEnds, h34, h10]
              rw [hstep] at h
              have gstep : rlxScan (b :: rest) item false false true
                  = rlxScan rest (item ++ [b]) false false true := by
                simp [rlxScan, h34, h10]
              rw [gstep]
              refine ih (item ++ [b]) false false true ?_
              simpa [append_singleton_isEmpty] using h
        | false =>
          by_cases h92 : b = 92
          · subst h92
            have hstep : scanEnds (92 :: rest) false false false (!item.isEmpty)
                = scanEnds rest true false false (!item.isEmpty) := by
              simp [scanEnds]
            rw [hstep] at h
            have gstep : rlxScan (92 :: rest) item false false false
                = rlxScan rest item true false false := by simp [rlxScan]
            rw [gstep]
            exact ih item true false false h
          · by_cases h39 : b = 39
            · subst h39
              have hstep : scanEnds (39 :: rest) false false false (!item.isEmpty)
                  = scanEnds rest false true false (!item.isEmpty) := by
                simp [scanEnds]
              rw [hstep] at h
              have gstep : rlxScan (39 :: rest) item false false false
                  = rlxScan rest item false true false := by simp [rlxScan]
              rw [gstep]
              exact ih item false true false h
            · by_cases h34 : b = 34
              · subst h34
                have hstep : scanEnds (34 :: rest) false false false (!item.isEmpty)
                    = scanEnds rest false false true (!item.isEmpty) := by
                  simp [scanEnds, h39]
                rw [hstep] at h
                have gstep : rlxScan (34 :: rest) item false false false
                    = rlxScan rest item false false true := by simp [rlxScan, h39]
                rw [gstep]
                exact ih item false false true h
              · by_cases hws : isWS b = true
                · cases item with
                  | nil =>
                    have hstep : scanEnds (b :: rest) false false false
                          (!(([] : List Nat).isEmpty))
                        = scanEnds rest false false false false := by
                      simp [scanEnds, h92, h39, h34, hws]
                    rw [hstep] at h
                    have gstep : rlxScan (b :: rest) ([] : List Nat) false false false
                        = rlxScan rest [] false false false := by
                      simp [rlxScan, h92, h39, h34, hws]
                    rw [gstep]
                    exact ih [] false false false h
                  | cons x xs =>
                    have hstep : scanEnds (b :: rest) false false false
                          (!((x :: xs).isEmpty)) = false := by
                      simp [scanEnds, h92, h39, h34, hws]
                    rw [hstep] at h
                    exact absurd h (by simp)
                · have hstep : scanEnds (b :: rest) false false false (!item.isEmpty)
                      = scanEnds rest false false false true := by
                    simp [scanEnds, h92, h39, h34, hws]
                  rw [hstep] at h
                  have gstep : rlxScan (b :: rest) item false false false
                      = rlxScan rest (item ++ [b]) false false false := by
                    simp [rlxScan, h92, h39, h34, hws]
                  rw [gstep]
                  refine ih (item ++ [b]) false false false ?_
                  simpa [append_singleton_isEmpty] using h

/-- C10: for every input byte stream whose delimited-mode scan ends while a
single- or double-quote span is still open, `read_like_xargs` yields the
`InvalidData` malformed-input failure "unterminated quote" — a constructor
distinct from a transport failure, and in particular never `Except.ok` with
the partial token accumulated so far. -/
theorem unterminated_quote_fails (input : List Nat)
    (h : scanEnds input false false false false = true) :
    read_like_xargs input
      = (some (Except.error (RlxErr.invalidData "unterminated quote")), []) := by
  obtain ⟨i2, e2, s2, d2, hscan, hopen⟩ :=
    rlxScan_open input [] false false false (by simpa using h)
  unfold read_like_xargs
  rw [hscan]
  simp [hopen]

/-- Witness for `unterminated_quote_fails`: the stream `'a` (an opened,
never-closed single quote) fails with the malformed-input error. -/
theorem unterminated_quote_fails_witness :
    scanEnds [39, 97] false false false false = true ∧
    read_like_xargs [39, 97]
      = (some (Except.error (RlxErr.invalidData "unterminated quote")), []) :=
  ⟨by decide, unterminated_quote_fails [39, 97] (by decide)⟩

/-- Only the batch-execution `ret` outcome lifts to a loop-iteration `ret`. -/
theorem liftBatch_ret (toks : List (List Nat)) (br : BatchRes)
    (r : Except Error Nat) (o : List Outcome)
    (h : liftBatch toks br = IterRes.ret r o) : br = BatchRes.ret r o := by
  cases br with
  | ret r1 o1 =>
    injection h with h1 h2
    rw [h1, h2]
  | stuck => exact IterRes.noConfusion h
  | cont s1 o1 => exact IterRes.noConfusion h

/-- Only the batch-execution `cont` outcome lifts to a loop-iteration
`cont`, and the token stream passes through unchanged. -/
theorem liftBatch_cont (toks : List (List Nat)) (br : BatchRes)
    (t1 : List (List Nat)) (o : List Outcome) (s1 : LoopState)
    (h : liftBatch toks br = IterRes.cont t1 o s1) :
    t1 = toks ∧ br = BatchRes.cont s1 o := by
  cases br with
  | ret r1 o1 => exact IterRes.noConfusion h
  | stuck => exact IterRes.noConfusion h
  | cont s2 o2 =>
    injection h with h1 h2 h3
    exact ⟨h1.symm, by rw [h2, h3]⟩

/-- A `ret` from the batch-execution section consumes exactly one outcome:
either a signal, returning `Ok(0)`, or the hard-stop code 255, returning
`Ok(255)`. -/
theorem batchStep_ret (outs : List Outcome) (s : LoopState) (base : CommandBuilder)
    (r : Except Error Nat) (o : List Outcome)
    (h : batchStep outs s base = BatchRes.ret r o) :
    (∃ n rest, outs = Outcome.signal n :: rest ∧ o = rest ∧ r = Except.ok 0) ∨
    (∃ rest, outs = Outcome.code 255 :: rest ∧ o = rest ∧ r = Except.ok 255) := by
  unfold batchStep at h
  split at h
  · split at h
    · exact BatchRes.noConfusion h
    · next n rest =>
        injection h with h1 h2
        exact Or.inl ⟨n, rest, rfl, h2.symm, h1.symm⟩
    · next c rest =>
        split at h
        · exact BatchRes.noConfusion h
        · split at h
          · next hc255 =>
              injection h with h1 h2
              subst hc255
              exact Or.inr ⟨rest, rfl, h2.symm, h1.symm⟩
          · exact BatchRes.noConfusion h
  · exact BatchRes.noConfusion h

/-- A `cont` from the batch-execution section either runs nothing (no
outcome consumed, `rc` unchanged) or consumes one natural exit code,
updating `rc` exactly as `recCode` describes. -/
theorem batchStep_cont (outs : List Outcome) (s : LoopState) (base : CommandBuilder)
    (s1 : LoopState) (o : List Outcome)
    (h : batchStep outs s base = BatchRes.cont s1 o) :
    (o = outs ∧ s1.rc = s.rc) ∨
    (∃ c rest, outs = Outcome.code c :: rest ∧ o = rest ∧
      s1.rc = recCode s.rc (Outcome.code c)) := by
  unfold batchStep at h
  split at h
  · split at h
    · exact BatchRes.noConfusion h
    · exact BatchRes.noConfusion h
    · next c rest =>
        split at h
        · next hc0 =>
            injection h with h1 h2
            refine Or.inr ⟨c, rest, rfl, h2.symm, ?_⟩
            rw [← h1, hc0]
            rfl
        · next hc0 =>
            split at h
            · exact BatchRes.noConfusion h
            · next hc255 =>
                injection h with h1 h2
                refine Or.inr ⟨c, rest, rfl, h2.symm, ?_⟩
                rw [← h1]
                simp [recCode, hc0]
  · injection h with h1 h2
    exact Or.inl ⟨h2.symm, by rw [← h1]⟩

/-- A `ret` from processing a token is either the `TooLarge` abort (no
outcome consumed) or one of the two terminating batch outcomes. -/
theorem iterItem_ret (toks : List (List Nat)) (outs : List Outcome) (s : LoopState)
    (it : List Nat) (base : CommandBuilder) (r : Except Error Nat) (o : List Outcome)
    (h : iterItem toks outs s it base = IterRes.ret r o) :
    (o = outs ∧ r = Except.error Error.TooLarge) ∨
    (∃ n rest, outs = Outcome.signal n :: rest ∧ o = rest ∧ r = Except.ok 0) ∨
    (∃ rest, outs = Outcome.code 255 :: rest ∧ o = rest ∧ r = Except.ok 255) := by
  unfold iterItem at h
  split at h
  · exact IterRes.noConfusion h
  · split at h
    · injection h with h1 h2
      exact Or.inl ⟨h2.symm, h1.symm⟩
    · have hb := liftBatch_ret _ _ _ _ h
      rcases batchStep_ret _ _ _ _ _ hb with hsig | h255
      · exact Or.inr (Or.inl hsig)
      · exact Or.inr (Or.inr h255)
    · have hb := liftBatch_ret _ _ _ _ h
      rcases batchStep_ret _ _ _ _ _ hb with hsig | h255
      · exact Or.inr (Or.inl hsig)
      · exact Or.inr (Or.inr h255)

/-- A `cont` from processing a token consumes at most one outcome and
updates `rc` per `recCode` when it does. -/
theorem iterItem_cont (toks : List (List Nat)) (outs : List Outcome) (s : LoopState)
    (it : List Nat) (base : CommandBuilder) (t1 : List (List Nat))
    (o1 : List Outcome) (s1 : LoopState)
    (h : iterItem toks outs s it base = IterRes.cont t1 o1 s1) :
    (o1 = outs ∧ s1.rc = s.rc) ∨
    (∃ c rest, outs = Outcome.code c :: rest ∧ o1 = rest ∧
      s1.rc = recCode s.rc (Outcome.code c)) := by
  unfold iterItem at h
  split at h
  · injection h with h1 h2 h3
    exact Or.inl ⟨h2.symm, by rw [← h3]⟩
  · split at h
    · exact IterRes.noConfusion h
    · obtain ⟨ht, hb⟩ := liftBatch_cont _ _ _ _ _ h
      rcases batchStep_cont _ _ _ _ _ hb with ⟨ho, hrc⟩ | hcons
      · exact Or.inl ⟨ho, hrc⟩
      · exact Or.inr hcons
    · obtain ⟨ht, hb⟩ := liftBatch_cont _ _ _ _ _ h
      rcases batchStep_cont _ _ _ _ _ hb with ⟨ho, hrc⟩ | hcons
      · exact Or.inl ⟨ho, hrc⟩
      · exact Or.inr hcons

/-- A `ret` from a full loop iteration: the normal `Ok(rc)` break or
`TooLarge` (nothing consumed), or one terminating batch outcome. -/
theorem iter1_ret (toks : List (List Nat)) (outs : List Outcome) (s : LoopState)
    (base : CommandBuilder) (r : Except Error Nat) (o : List Outcome)
    (h : iter1 toks outs s base = IterRes.ret r o) :
    (o = outs ∧ (r = Except.ok s.rc ∨ r = Except.error Error.TooLarge)) ∨
    (∃ n rest, outs = Outcome.signal n :: rest ∧ o = rest ∧ r = Except.ok 0) ∨
    (∃ rest, outs = Outcome.code 255 :: rest ∧ o = rest ∧ r = Except.ok 255) := by
  unfold iter1 at h
  split at h
  · rcases iterItem_ret _ _ _ _ _ _ _ h with ⟨ho, hr⟩ | hsig | h255
    · exact Or.inl ⟨ho, Or.inr hr⟩
    · exact Or.inr (Or.inl hsig)
    · exact Or.inr (Or.inr h255)
  · split at h
    · split at h
      · have hb := liftBatch_ret _ _ _ _ h
        rcases batchStep_ret _ _ _ _ _ hb with hsig | h255
        · exact Or.inr (Or.inl hsig)
        · exact Or.inr (Or.inr h255)
      · injection h with h1 h2
        exact Or.inl ⟨h2.symm, Or.inl h1.symm⟩
    · rcases iterItem_ret _ _ _ _ _ _ _ h with ⟨ho, hr⟩ | hsig | h255
      · exact Or.inl ⟨ho, Or.inr hr⟩
      · exact Or.inr (Or.inl hsig)
      · exact Or.inr (Or.inr h255)

/-- A `cont` from a full loop iteration consumes at most one outcome and
updates `rc` per `recCode` when it does. -/
theorem iter1_cont (toks : List (List Nat)) (outs : List Outcome) (s : LoopState)
    (base : CommandBuilder) (t1 : List (List Nat)) (o1 : List Outcome) (s1 : LoopState)
    (h : iter1 toks outs s base = IterRes.cont t1 o1 s1) :
    (o1 = outs ∧ s1.rc = s.rc) ∨
    (∃ c rest, outs = Outcome.code c :: rest ∧ o1 = rest ∧
      s1.rc = recCode s.rc (Outcome.code c)) := by
  unfold iter1 at h
  split at h
  · exact iterItem_cont _ _ _ _ _ _ _ _ h
  · split at h
    · split at h
      · obtain ⟨ht, hb⟩ := liftBatch_cont _ _ _ _ _ h
        rcases batchStep_cont _ _ _ _ _ hb with ⟨ho, hrc⟩ | hcons
        · exact Or.inl ⟨ho, hrc⟩
        · exact Or.inr hcons
      · exact IterRes.noConfusion h
    · rcases iterItem_cont _ _ _ _ _ _ _ _ h with ⟨ho, hrc⟩ | hcons
      · exact Or.inl ⟨ho, hrc⟩
      · exact Or.inr hcons

/-- C6 (amended): run histories of natural, non-hard-stop exits — each
non-zero code overwrites the provisional result `rc`, so the run keeps the
most recent non-zero code, not the highest; when the loop reaches Done, the
result is exactly the fold of `recCode` (last non-zero code seen, else the
starting `rc`) over the consumed prefix of the outcome oracle. -/
theorem run_result_last_code :
    ∀ (fuel : Nat) (toks : List (List Nat)) (outs : List Outcome) (s : LoopState)
      (base : CommandBuilder) (r : Nat) (rest : List Outcome),
      (∀ o ∈ outs, ∃ c, o = Outcome.code c ∧ c ≠ 255) →
      runLoop fuel toks outs s base = some (Except.ok r, rest) →
      ∃ pre, outs = pre ++ rest ∧ r = pre.foldl recCode s.rc := by
  intro fuel
  induction fuel with
  | zero =>
    intro toks outs s base r rest hout h
    exact Option.noConfusion h
  | succ n ih =>
    intro toks outs s base r rest hout h
    simp only [runLoop] at h
    cases hi : iter1 toks outs s base with
    | ret r1 o1 =>
      rw [hi] at h
      injection h with h1
      injection h1 with hr ho
      rcases iter1_ret _ _ _ _ _ _ hi with ⟨ho2, hcase⟩ | ⟨n1, rest1, houts, ho2, hr2⟩
        | ⟨rest1, houts, ho2, hr2⟩
      · rcases hcase with hok | herr
        · refine ⟨[], ?_, ?_⟩
          · rw [List.nil_append]
            exact ho2.symm.trans ho
          · have hh := hr.symm.trans hok
            injection hh with hh2
        · exact Except.noConfusion (herr.symm.trans hr)
      · obtain ⟨c, hc, _⟩ := hout (Outcome.signal n1)
          (by rw [houts]; exact List.mem_cons_self _ _)
        exact Outcome.noConfusion hc
      · obtain ⟨c, hc, hne⟩ := hout (Outcome.code 255)
          (by rw [houts]; exact List.mem_cons_self _ _)
        injection hc with hc2
        exact absurd hc2.symm hne
    | stuck =>
      rw [hi] at h
      exact Option.noConfusion h
    | cont t1 o1 s1 =>
      rw [hi] at h
      rcases iter1_cont _ _ _ _ _ _ _ hi with ⟨ho, hrc⟩ | ⟨c, rest1, houts, ho, hrc⟩
      · have hout1 : ∀ o2 ∈ o1, ∃ c2, o2 = Outcome.code c2 ∧ c2 ≠ 255 := by
          rw [ho]; exact hout
        obtain ⟨pre, hp, hr⟩ := ih t1 o1 s1 base r rest hout1 h
        refine ⟨pre, ?_, ?_⟩
        · rw [← ho]; exact hp
        · rw [← hrc]; exact hr
      · have hout1 : ∀ o2 ∈ o1, ∃ c2, o2 = Outcome.code c2 ∧ c2 ≠ 255 := by
          intro o2 ho2
          exact hout o2 (by rw [houts]; exact List.mem_cons_of_mem _ (ho ▸ ho2))
        obtain ⟨pre, hp, hr⟩ := ih t1 o1 s1 base r rest hout1 h
        have hrest1 : rest1 = pre ++ rest := ho ▸ hp
        refine ⟨Outcome.code c :: pre, ?_, ?_⟩
        · rw [houts, List.cons_append, hrest1]
        · rw [List.foldl_cons, ← hrc]
          exact hr

/-- C7 (amended): whenever the run loop terminates after a batch was
terminated by a signal (a signal appears in the consumed prefix of the
outcome oracle), the overall result is `Ok(0)` — not the last recorded
non-zero code — for every prior history of batch exits. -/
theorem run_signal_zero :
    ∀ (fuel : Nat) (toks : List (List Nat)) (outs : List Outcome) (s : LoopState)
      (base : CommandBuilder) (r : Except Error Nat) (rest : List Outcome),
      runLoop fuel toks outs s base = some (r, rest) →
      ∀ (pre : List Outcome) (n : Nat), outs = pre ++ rest →
        Outcome.signal n ∈ pre → r = Except.ok 0 := by
  intro fuel
  induction fuel with
  | zero =>
    intro toks outs s base r rest h
    exact Option.noConfusion h
  | succ n2 ih =>
    intro toks outs s base r rest h pre n hpre hmem
    simp only [runLoop] at h
    cases hi : iter1 toks outs s base with
    | ret r1 o1 =>
      rw [hi] at h
      injection h with h1
      injection h1 with hr ho
      rcases iter1_ret _ _ _ _ _ _ hi with ⟨ho2, _⟩ | ⟨n1, rest1, houts, ho2, hr2⟩
        | ⟨rest1, houts, ho2, hr2⟩
      · have hrest : rest = outs := by rw [← ho, ho2]
        have hlen : pre.length = 0 := by
          have hl := congrArg List.length hpre
          rw [hrest, List.length_append] at hl
          omega
        rw [List.eq_nil_of_length_eq_zero hlen] at hmem
        exact absurd hmem (List.not_mem_nil _)
      · rw [← hr, hr2]
      · have hrest : rest = rest1 := by rw [← ho, ho2]
        cases pre with
        | nil => exact absurd hmem (List.not_mem_nil _)
        | cons p ps =>
          rw [houts, hrest, List.cons_append] at hpre
          injection hpre with hp hps
          have hlen : ps.length = 0 := by
            have hl := congrArg List.length hps
            rw [List.length_append] at hl
            omega
          rw [List.eq_nil_of_length_eq_zero hlen] at hmem
          rcases List.mem_cons.mp hmem with hh | hh
          · rw [← hp] at hh
            exact Outcome.noConfusion hh
          · exact absurd hh (List.not_mem_nil _)
    | stuck =>
      rw [hi] at h
      exact Option.noConfusion h
    | cont t1 o1 s1 =>
      rw [hi] at h
      rcases iter1_cont _ _ _ _ _ _ _ hi with ⟨ho, _⟩ | ⟨c, rest1, houts, ho, _⟩
      · refine ih t1 o1 s1 base r rest h pre n ?_ hmem
        rw [ho]
        exact hpre
      · cases pre with
        | nil => exact absurd hmem (List.not_mem_nil _)
        | cons p ps =>
          rw [houts, List.cons_append] at hpre
          injection hpre with hp hps
          refine ih t1 o1 s1 base r rest h ps n ?_ ?_
          · rw [ho]
            exact hps
          · rcases List.mem_cons.mp hmem with hh | hh
            · rw [← hp] at hh
              exact Outcome.noConfusion hh
            · exact hh

/-- C6 counterexample: with a 20-byte budget (one one-byte token per batch)
and two batches exiting 2 then 1, the run returns 1 — the last code seen —
not the highest recorded code 2. -/
theorem run_not_highest_code :
    with_limits [99] lims20 [] = Except.ok base20 ∧
    runLoop 6 [[97], [97]] [Outcome.code 2, Outcome.code 1] init20 base20
      = some (Except.ok 1, []) ∧
    ¬ ((1 : Nat) = Nat.max (Nat.max 0 2) 1) :=
  ⟨rfl, rfl, by decide⟩

/-- Witness for `run_result_last_code` at the same concrete run: the
consumed prefix is the whole oracle and the result folds to the last
non-zero code. -/
theorem run_result_last_code_witness :
    ∃ pre, ([Outcome.code 2, Outcome.code 1] : List Outcome) = pre ++ [] ∧
      1 = pre.foldl recCode init20.rc :=
  run_result_last_code 6 [[97], [97]] [Outcome.code 2, Outcome.code 1] init20 base20 1 []
    (by
      intro o ho
      rcases List.mem_cons.mp ho with hh | hh
      · exact ⟨2, hh, by decide⟩
      · rcases List.mem_cons.mp hh with hh2 | hh2
        · exact ⟨1, hh2, by decide⟩
        · exact absurd hh2 (List.not_mem_nil _))
    rfl

/-- C7 counterexample: after a batch exits with code 2 (recorded as the
provisional result), a signal-terminated batch makes the run return
`Ok(0)`, not the last recorded result code 2. -/
theorem run_signal_not_last_recorded :
    with_limits [99] lims20 [] = Except.ok base20 ∧
    runLoop 6 [[97], [97]] [Outcome.code 2, Outcome.signal 9] init20 base20
      = some (Except.ok 0, []) ∧
    ¬ ((0 : Nat) = 2) :=
  ⟨rfl, rfl, by decide⟩

/-- Witness for `run_signal_zero` at the same concrete run: the consumed
prefix contains the signal, so the result is `Ok(0)`. -/
theorem run_signal_zero_witness :
    runLoop 6 [[97], [97]] [Outcome.code 2, Outcome.signal 9] init20 base20
      = some (Except.ok 0, []) ∧
    (Except.ok 0 : Except Error Nat) = Except.ok 0 :=
  ⟨rfl,
    run_signal_zero 6 [[97], [97]] [Outcome.code 2, Outcome.signal 9] init20 base20
      (Except.ok 0) [] rfl [Outcome.code 2, Outcome.signal 9] 9 rfl
      (List.mem_cons_of_mem _ (List.mem_cons_self _ _))⟩
